import Mathlib

/-!
Shallow embedding of the apt-cache-proxy core (`src/services/cache_manager.py`,
`src/utils/config.py`) and proofs about it.

Modelling conventions:
* Python strings are Lean `String`; byte strings are also `String` (bodies are
  opaque chunk payloads).  Case folding (`str.lower`, `re.IGNORECASE`) is
  modelled on ASCII, which covers every character the proxy handles.
* Machine integers are `Nat` with explicit `% 2^32` / `% 2^64` where the md5
  reference arithmetic overflows.
* `pathlib.Path` is modelled by `PyPath`: an absolute flag plus the parsed
  components (pathlib drops empty components and `"."` when parsing, keeps
  `".."`, and a join with an absolute right operand discards the left).
* The filesystem is an association list from (rendered) absolute paths to file
  contents, or a plain list of existing paths where contents do not matter.
  `Path.resolve` / the kernel path walk are modelled for symlink-free trees.
* Network fetches (`requests.get`) are modelled by an oracle list of outcomes,
  one per attempted URL, in mirror order.
-/

namespace AptCacheProxy

/-! ### ASCII case folding and substring containment -/

/-- ASCII lower-casing of one character, the fragment of Python `str.lower`
relevant to proxy filenames and patterns. -/
def lowerCh (c : Char) : Char :=
  if 'A' ≤ c ∧ c ≤ 'Z' then Char.ofNat (c.toNat + 32) else c

/-- Lower-case a string character-wise (model of Python `str.lower`). -/
def lowerStr (s : String) : String := String.mk (s.data.map lowerCh)

/-- Decide whether `pre` is a prefix of `l` (model of `str.startswith` at a
fixed offset). -/
def isPrefixCh : List Char → List Char → Bool
  | [], _ => true
  | a :: as, b :: bs => a == b && isPrefixCh as bs
  | _ :: _, [] => false

/-- Decide whether `needle` occurs as a contiguous substring of `hay`
(model of the Python test `needle in hay`). -/
def containsSub (needle : List Char) : List Char → Bool
  | [] => isPrefixCh needle []
  | h :: hs => isPrefixCh needle (h :: hs) || containsSub needle hs

/-- Python `needle in hay` on strings. -/
def pyIn (needle hay : String) : Bool := containsSub needle.data hay.data

/-- Model of Python `str.startswith`. -/
def startsWithCh (s pre : String) : Bool := isPrefixCh pre.data s.data

/-! ### Blacklist matcher (`is_blacklisted`, lines 82-97)

The source translates a pattern containing `*` to a regex by
`pattern.replace('.', '\.').replace('*', '.*')` and runs `re.search` with
`re.IGNORECASE`; otherwise it tests case-insensitive substring containment.
For patterns free of regex metacharacters (every pattern the claims touch),
the translated regex is a sequence of literal characters and `.*` blocks, so
we tokenize the pattern directly: `*` becomes a star token, every other
character a literal. -/

inductive GlobTok where
  | lit (c : Char)
  | star
deriving Repr, DecidableEq

/-- Tokenization of the translated regex of a wildcard pattern. -/
def globToks (pattern : String) : List GlobTok :=
  pattern.data.map (fun c => if c == '*' then GlobTok.star else GlobTok.lit c)

/-- Does `p` hold on some suffix of the list (including the list itself)? -/
def anySuffix (p : List Char → Bool) : List Char → Bool
  | [] => p []
  | x :: xs => p (x :: xs) || anySuffix p xs

/-- Anchored regex matching of the token list against a character list,
case-insensitively (`re.IGNORECASE`).  A `.*` block matches iff the rest of
the tokens match some suffix, which is exactly the backtracking semantics. -/
def tokMatch : List GlobTok → List Char → Bool
  | [], _ => true
  | GlobTok.lit _ :: _, [] => false
  | GlobTok.lit c :: ts, x :: xs => (lowerCh c == lowerCh x) && tokMatch ts xs
  | GlobTok.star :: ts, xs => anySuffix (fun cs => tokMatch ts cs) xs

/-- Unanchored search (`re.search`): try to match at every start position. -/
def tokSearch (ts : List GlobTok) : List Char → Bool
  | [] => tokMatch ts []
  | x :: xs => tokMatch ts (x :: xs) || tokSearch ts xs

/-- Does `filename` match one blacklist `pattern`?  Wildcard patterns go
through the regex path, the rest through case-insensitive containment. -/
def matchesPattern (pattern filename : String) : Bool :=
  if pattern.data.contains '*' then
    tokSearch (globToks pattern) filename.data
  else
    pyIn (lowerStr pattern) (lowerStr filename)

/-- `is_blacklisted`: first matching pattern wins; no pattern matches means
not blacklisted. -/
def isBlacklisted (patterns : List String) (filename : String) : Bool :=
  patterns.any (fun p => matchesPattern p filename)

/-- In-memory effect of `add_blacklist_pattern` on the pattern snapshot
(lines 38-56): append unless already present. -/
def addBlacklistPattern (p : String) (l : List String) : List String :=
  if p ∈ l then l else l ++ [p]

/-- In-memory effect of `remove_blacklist_pattern` (lines 58-76):
`list.remove` deletes the first occurrence, and only runs when present. -/
def removeBlacklistPattern (p : String) (l : List String) : List String :=
  if p ∈ l then l.erase p else l

/-! ### pathlib model -/

/-- Split a character list on `'/'`. -/
def splitSlashCh (acc : List Char) : List Char → List (List Char)
  | [] => [acc.reverse]
  | c :: rest => if c == '/' then acc.reverse :: splitSlashCh [] rest
                 else splitSlashCh (c :: acc) rest

/-- Keep only real path components: pathlib drops empty components (duplicate
or trailing slashes) and `"."` while parsing. -/
def cleanSegs (ls : List (List Char)) : List String :=
  (ls.filter (fun l => !(l == []) && !(l == ['.']))).map (fun l => String.mk l)

/-- Does the character list start with `'/'`? -/
def startsSlash : List Char → Bool
  | [] => false
  | c :: _ => c == '/'

/-- A parsed `pathlib.PurePosixPath`: absolute flag plus components. -/
structure PyPath where
  absolute : Bool
  parts : List String
deriving Repr, DecidableEq

/-- Parse a string into a `PyPath` the way `pathlib` does. -/
def parsePath (s : String) : PyPath :=
  ⟨startsSlash s.data, cleanSegs (splitSlashCh [] s.data)⟩

/-- The `/` operator on paths: an absolute right operand discards the left. -/
def PyPath.join (p : PyPath) (s : String) : PyPath :=
  let q := parsePath s
  if q.absolute then q else ⟨p.absolute, p.parts ++ q.parts⟩

/-- Render a `PyPath` back to a string (`str(path)`). -/
def PyPath.render (p : PyPath) : String :=
  (if p.absolute then "/" else "") ++ String.intercalate "/" p.parts

/-- `Path.name`: the final component, or `""` for a bare root. -/
def PyPath.name (p : PyPath) : String := p.parts.getLastD ""

/-- One pass of POSIX `..` elimination over already-clean components:
`".."` pops the previous component (and is a no-op at the root, as on POSIX
where `/.. = /`). -/
def normSegsAux (acc : List String) : List String → List String
  | [] => acc
  | s :: rest =>
    if s = "" ∨ s = "." then normSegsAux acc rest
    else if s = ".." then normSegsAux acc.dropLast rest
    else normSegsAux (acc ++ [s]) rest

/-- `Path.resolve()` on a symlink-free tree: eliminate `..` components. -/
def resolvePath (p : PyPath) : PyPath := ⟨p.absolute, normSegsAux [] p.parts⟩

/-- The characters after the last `'/'`, i.e. `os.path.basename`. -/
def afterLastSlash (l : List Char) : List Char :=
  (l.reverse.takeWhile (fun c => c ≠ '/')).reverse

/-- `os.path.basename` on POSIX. -/
def osBasename (s : String) : String := String.mk (afterLastSlash s.data)

/-! ### `delete_cached_file` (lines 180-201)

The filesystem is a list of the rendered, resolved absolute paths of the
existing files.  `Path.exists` and `Path.unlink` both go through the kernel,
which resolves `..` components, so they act on the resolved target.  The
security check in the source compares the UNresolved joined path string
against the resolved storage root with `str.startswith`. -/

def deleteCachedFile (storageRoot : String) (fs : List String) (relPath : String) :
    Bool × List String :=
  if storageRoot = "" then (false, fs)
  else
    let fullPath := (parsePath storageRoot).join relPath
    if startsWithCh fullPath.render (resolvePath (parsePath storageRoot)).render then
      let target := (resolvePath fullPath).render
      if target ∈ fs then (true, fs.erase target) else (false, fs)
    else (false, fs)

/-! ### `Path.with_suffix` -/

/-- Index of the last occurrence of `c`, if any. -/
def rfindAux (c : Char) : List Char → Nat → Option Nat
  | [], _ => none
  | x :: xs, i =>
    match rfindAux c xs (i + 1) with
    | some j => some j
    | none => if x == c then some i else none

/-- Length of `PurePath.suffix` of a file name: the part from the last dot,
provided that dot is neither the first nor the last character. -/
def pySuffixLen (l : List Char) : Nat :=
  match rfindAux '.' l 0 with
  | some i => if 0 < i ∧ i + 1 < l.length then l.length - i else 0
  | none => 0

/-- `PurePath.with_suffix` on the file name: REPLACE the current suffix when
there is one, append otherwise. -/
def pyNameWithSuffix (name suffix : String) : String :=
  String.mk (name.data.take (name.data.length - pySuffixLen name.data)) ++ suffix

/-- `Path.with_suffix` on a whole path. -/
def PyPath.withSuffix (p : PyPath) (suffix : String) : PyPath :=
  match p.parts.getLast? with
  | none => p
  | some n => ⟨p.absolute, p.parts.dropLast ++ [pyNameWithSuffix n suffix]⟩

/-! ### The caching generator `generate_cached` (lines 414-437)

`stream_and_cache` computes `temp_path = cache_path.with_suffix(".tmp")` and
the generator writes every non-empty chunk to it while yielding it, then
renames on a clean end of stream.  The `try`/`except Exception` block means:
an ordinary exception (upstream read error, disk write error) runs the
cleanup `temp_path.unlink()`; but a client disconnect makes the WSGI server
`close()` the generator, which raises `GeneratorExit` at the current `yield`,
and `GeneratorExit` derives from `BaseException`, NOT from `Exception`, so
the cleanup clause does not run for it (the `with` block still closes the
file handle). -/

/-- How a streaming cache write ends.  The `Nat` counts the non-empty chunks
fully processed (written and yielded) before the interruption. -/
inductive StreamEnding where
  | eof
  | raiseExc (k : Nat)
  | clientAbort (k : Nat)
deriving Repr, DecidableEq

/-- Filesystem fragment as an association list path ↦ contents. -/
abbrev CacheFs := List (String × String)

def fsErase (p : String) (fs : CacheFs) : CacheFs := fs.filter (fun e => e.1 ≠ p)

def fsSet (p v : String) (fs : CacheFs) : CacheFs := fsErase p fs ++ [(p, v)]

def fsGet (p : String) (fs : CacheFs) : Option String :=
  (fs.find? (fun e => e.1 == p)).map (fun e => e.2)

/-- Result of running `generate_cached` to completion of the generator. -/
structure WriteOutcome where
  opened : String
  fs : CacheFs
  yielded : List String
  renamed : Bool
deriving Repr, DecidableEq

/-- Model of `generate_cached`: `open(temp_path, "wb")` truncates the temp
file; each non-empty chunk is appended to it and yielded; on clean EOF the
temp file is renamed onto `cache_path`; on an `Exception` after `k` chunks
the temp file is unlinked; on `GeneratorExit` (client abort) after `k`
chunks nothing is cleaned up, so the partial temp file remains. -/
def generateCached (cachePath : PyPath) (chunks : List String) (ending : StreamEnding)
    (fs0 : CacheFs) : WriteOutcome :=
  let tempPath := (cachePath.withSuffix ".tmp").render
  let goodChunks := chunks.filter (fun c => c ≠ "")
  match ending with
  | StreamEnding.eof =>
      let content := String.join goodChunks
      let fs1 := fsSet tempPath content fs0
      let fs2 := fsSet cachePath.render content (fsErase tempPath fs1)
      ⟨tempPath, fs2, goodChunks, true⟩
  | StreamEnding.raiseExc k =>
      let content := String.join (goodChunks.take k)
      let fs1 := fsSet tempPath content fs0
      ⟨tempPath, fsErase tempPath fs1, goodChunks.take k, false⟩
  | StreamEnding.clientAbort k =>
      let content := String.join (goodChunks.take k)
      ⟨tempPath, fsSet tempPath content fs0, goodChunks.take k, false⟩

/-! ### md5 (`hashlib.md5(path.encode()).hexdigest()`)

A complete executable RFC 1321 md5 over `Nat` with explicit `% 2^32`
arithmetic; `path.encode()` is UTF-8. -/

/-- UTF-8 encoding of one character, as byte values. -/
def utf8Char (c : Char) : List Nat :=
  let n := c.toNat
  if n < 128 then [n]
  else if n < 2048 then [192 + n / 64, 128 + n % 64]
  else if n < 65536 then [224 + n / 4096, 128 + (n / 64) % 64, 128 + n % 64]
  else [240 + n / 262144, 128 + (n / 4096) % 64, 128 + (n / 64) % 64, 128 + n % 64]

/-- `str.encode()`: UTF-8 bytes of a string. -/
def strBytes (s : String) : List Nat := s.data.flatMap utf8Char

/-- The 64 md5 sine-table constants `floor(|sin(i+1)| * 2^32)`. -/
def md5K : List Nat :=
  [3614090360, 3905402710, 606105819, 3250441966, 4118548399, 1200080426,
   2821735955, 4249261313, 1770035416, 2336552879, 4294925233, 2304563134,
   1804603682, 4254626195, 2792965006, 1236535329, 4129170786, 3225465664,
   643717713, 3921069994, 3593408605, 38016083, 3634488961, 3889429448,
   568446438, 3275163606, 4107603335, 1163531501, 2850285829, 4243563512,
   1735328473, 2368359562, 4294588738, 2272392833, 1839030562, 4259657740,
   2763975236, 1272893353, 4139469664, 3200236656, 681279174, 3936430074,
   3572445317, 76029189, 3654602809, 3873151461, 530742520, 3299628645,
   4096336452, 1126891415, 2878612391, 4237533241, 1700485571, 2399980690,
   4293915773, 2240044497, 1873313359, 4264355552, 2734768916, 1309151649,
   4149444226, 3174756917, 718787259, 3951481745]

/-- The md5 per-round left-rotation amounts. -/
def md5S : List Nat :=
  [7, 12, 17, 22, 7, 12, 17, 22, 7, 12, 17, 22, 7, 12, 17, 22,
   5, 9, 14, 20, 5, 9, 14, 20, 5, 9, 14, 20, 5, 9, 14, 20,
   4, 11, 16, 23, 4, 11, 16, 23, 4, 11, 16, 23, 4, 11, 16, 23,
   6, 10, 15, 21, 6, 10, 15, 21, 6, 10, 15, 21, 6, 10, 15, 21]

/-- 32-bit left rotation. -/
def rotl32 (x n : Nat) : Nat := ((x <<< n) % 4294967296) ||| (x >>> (32 - n))

/-- 32-bit complement (for `x < 2^32`). -/
def comp32 (x : Nat) : Nat := 4294967295 - x

/-- md5 padding: append `0x80`, zeros to 56 mod 64, then the 64-bit
little-endian bit length. -/
def md5Pad (msg : List Nat) : List Nat :=
  let len := msg.length
  let zeros := (119 - len % 64) % 64
  let bitLen := (len * 8) % 18446744073709551616
  msg ++ [128] ++ List.replicate zeros 0 ++
    ((List.range 8).map (fun i => (bitLen >>> (8 * i)) % 256))

/-- Little-endian 32-bit word `j` of the 64-byte block starting at byte
`base` of the padded message. -/
def md5Word (padded : List Nat) (base j : Nat) : Nat :=
  padded.getD (base + 4 * j) 0 + 256 * padded.getD (base + 4 * j + 1) 0 +
    65536 * padded.getD (base + 4 * j + 2) 0 + 16777216 * padded.getD (base + 4 * j + 3) 0

/-- One of the 64 md5 steps on the state `(a, b, c, d)`. -/
def md5Step (padded : List Nat) (base : Nat) (st : Nat × Nat × Nat × Nat) (i : Nat) :
    Nat × Nat × Nat × Nat :=
  let a := st.1; let b := st.2.1; let c := st.2.2.1; let d := st.2.2.2
  let fg : Nat × Nat :=
    if i < 16 then ((b &&& c) ||| (comp32 b &&& d), i)
    else if i < 32 then ((d &&& b) ||| (comp32 d &&& c), (5 * i + 1) % 16)
    else if i < 48 then (b ^^^ c ^^^ d, (3 * i + 5) % 16)
    else (c ^^^ (b ||| comp32 d), (7 * i) % 16)
  let sum := (a + fg.1 + md5K.getD i 0 + md5Word padded base fg.2) % 4294967296
  (d, (b + rotl32 sum (md5S.getD i 0)) % 4294967296, b, c)

/-- Process one 64-byte block. -/
def md5Block (padded : List Nat) (st : Nat × Nat × Nat × Nat) (base : Nat) :
    Nat × Nat × Nat × Nat :=
  let r := (List.range 64).foldl (md5Step padded base) st
  ((st.1 + r.1) % 4294967296, (st.2.1 + r.2.1) % 4294967296,
   (st.2.2.1 + r.2.2.1) % 4294967296, (st.2.2.2 + r.2.2.2) % 4294967296)

/-- The 16 digest bytes of the md5 of a byte sequence. -/
def md5Digest (msg : List Nat) : List Nat :=
  let padded := md5Pad msg
  let nb := padded.length / 64
  let st := ((List.range nb).map (fun i => 64 * i)).foldl (md5Block padded)
    (1732584193, 4023233417, 2562383102, 271733878)
  [st.1, st.2.1, st.2.2.1, st.2.2.2].flatMap
    (fun w => (List.range 4).map (fun i => (w >>> (8 * i)) % 256))

/-- Lower-case hex digit characters. -/
def hexDigits : List Char := ("0123456789abcdef").data

/-- One hex digit. -/
def hexDig (n : Nat) : Char := hexDigits.getD n '0'

/-- `hexdigest()` as a character list. -/
def md5hexChars (s : String) : List Char :=
  (md5Digest (strBytes s)).flatMap (fun b => [hexDig (b / 16), hexDig (b % 16)])

/-- `hashlib.md5(s.encode()).hexdigest()`. -/
def md5hex (s : String) : String := String.mk (md5hexChars s)

/-! ### `get_cache_path` (lines 99-106)

`storage_path / distro / path_hash[:2] / f"{path_hash}_{filename}"` with
`filename = os.path.basename(path) or "index"`.  The `mkdir` side effect is
an idempotent directory creation and affects no claim. -/

def getCachePath (storageRoot distro path : String) : PyPath :=
  let pathHash := md5hexChars path
  let filename := if osBasename path = "" then "index" else osBasename path
  let cacheDir := ((parsePath storageRoot).join distro).join (String.mk (pathHash.take 2))
  cacheDir.join (String.mk pathHash ++ "_" ++ filename)

/-! ### `is_cache_valid` (lines 108-126)

`cache_path.stat().st_atime` with an exception fallback to `st_mtime`;
`datetime.now() - datetime.fromtimestamp(last_access) < timedelta(days=cache_days)`.
Times are modelled in whole seconds. -/

/-- `stat` result of an existing file: `st_atime` is `none` when reading it
raises (the `except` branch), `st_mtime` always present. -/
structure FileTimes where
  atime : Option Int
  mtime : Int
deriving Repr, DecidableEq

/-- `is_cache_valid` as a function of the retention config, the clock and the
stat of the file (`none` = the file does not exist). -/
def isCacheValid (retentionEnabled : Bool) (cacheDays : Int) (now : Int)
    (stat : Option FileTimes) : Bool :=
  match stat with
  | none => false
  | some st =>
    if !retentionEnabled then true
    else
      let lastAccess := st.atime.getD st.mtime
      now - lastAccess < cacheDays * 86400

/-! ### Mirror failover (`stream_and_cache`, lines 351-471)

Each attempted URL produces one `FetchOutcome` (the oracle for
`requests.get`): an HTTP status, a timeout, or a transport error.  The loop
classifies outcomes exactly as the source: `404` first, then
`[200, 206, 304]`, every other status is recorded and the next mirror tried;
`requests.Timeout` records `"Timeout"`, `requests.RequestException e`
records `str(e)`.  Header filtering and the `bytes_served` counter carry no
claim and are elided; the response body is summarised by which generator the
source would return. -/

inductive FetchOutcome where
  | status (code : Nat)
  | timeout
  | transport (msg : String)
deriving Repr, DecidableEq

/-- The error string recorded in `last_error` for a recoverable outcome. -/
def errStringOf : FetchOutcome → String
  | FetchOutcome.status c => if c = 404 then "404 Not Found" else "HTTP " ++ toString c
  | FetchOutcome.timeout => "Timeout"
  | FetchOutcome.transport m => m

/-- Is the outcome one the claim calls recoverable (a 404, another status
`≥ 400`, a timeout, or a transport error)? -/
def recoverableB : FetchOutcome → Bool
  | FetchOutcome.status c => 400 ≤ c
  | FetchOutcome.timeout => true
  | FetchOutcome.transport _ => true

/-- Which body generator a response from `stream_and_cache` carries. -/
inductive RespBody where
  | errorText (msg : String)
  | emptyBody
  | partialStream
  | cachingStream (tempPath : PyPath) (finalPath : PyPath)
  | plainStream
deriving Repr, DecidableEq

structure ProxyResponse where
  status : Nat
  body : RespBody
deriving Repr, DecidableEq

/-- Python `f"{last_error}"` of an `Optional[str]`. -/
def renderOpt : Option String → String
  | none => "None"
  | some s => s

/-- The `for url in urls` loop of `stream_and_cache`, with the outcome of
each fetch supplied in mirror order. -/
def mirrorLoop (shouldCache : Bool) (cachePath : PyPath) :
    List FetchOutcome → Option String → ProxyResponse
  | [], lastErr =>
    ⟨502, RespBody.errorText ("All upstream mirrors failed. Last error: " ++ renderOpt lastErr)⟩
  | o :: rest, _ =>
    match o with
    | FetchOutcome.timeout => mirrorLoop shouldCache cachePath rest (some "Timeout")
    | FetchOutcome.transport m => mirrorLoop shouldCache cachePath rest (some m)
    | FetchOutcome.status code =>
      if code = 404 then mirrorLoop shouldCache cachePath rest (some "404 Not Found")
      else if code = 200 ∨ code = 206 ∨ code = 304 then
        if code = 304 then ⟨304, RespBody.emptyBody⟩
        else if code = 206 then ⟨206, RespBody.partialStream⟩
        else if shouldCache then
          ⟨200, RespBody.cachingStream (cachePath.withSuffix ".tmp") cachePath⟩
        else ⟨200, RespBody.plainStream⟩
      else mirrorLoop shouldCache cachePath rest (some ("HTTP " ++ toString code))

/-- `filename.split('_', 1)`: the part after the first underscore, or the
whole string when there is none. -/
def afterFirstUnderscore : List Char → Option (List Char)
  | [] => none
  | c :: rest => if c == '_' then some rest else afterFirstUnderscore rest

/-- The "real" file name recovered from a `hash_name` cache file name. -/
def realNameOf (s : String) : String :=
  match afterFirstUnderscore s.data with
  | some r => String.mk r
  | none => s

/-- `stream_and_cache`: the blacklist decides `should_cache` from the part of
`cache_path.name` after the first underscore, then the mirror loop runs with
`last_error = None`. -/
def streamAndCache (patterns : List String) (cachePath : PyPath)
    (outcomes : List FetchOutcome) : ProxyResponse :=
  mirrorLoop (!isBlacklisted patterns (realNameOf cachePath.name)) cachePath outcomes none

/-! ### Index search (`search_upstream_packages`, lines 203-309)

The cache tree under `<storage>/<distro>` is given in `os.walk` order as a
list of directories, each a list of `(filename, content lines)`; gzip
decompression is elided (the lines are the decompressed text).  Whether a
candidate package path is already cached (`is_cache_valid(get_cache_path …)`)
is an oracle `String → Bool` of the package path.  The direct `HEAD` probe of
a `/`-containing query is summarised by `probeHit : Bool` (some configured
mirror answered 200). -/

structure SearchHit where
  name : String
  path : String
  distro : String
  version : Option String
  cached : Bool
deriving Repr, DecidableEq

/-- Python dict update `d[k] = v`. -/
def dictSet (k v : String) (d : List (String × String)) : List (String × String) :=
  d.filter (fun e => e.1 ≠ k) ++ [(k, v)]

/-- Python dict lookup. -/
def dictGet (k : String) (d : List (String × String)) : Option String :=
  (d.find? (fun e => e.1 == k)).map (fun e => e.2)

/-- Characters before the first `':'`, and after it, if any
(`line.split(':', 1)`). -/
def splitColon (acc : List Char) : List Char → Option (String × String)
  | [] => none
  | c :: rest => if c == ':' then some (String.mk acc.reverse, String.mk rest)
                 else splitColon (c :: acc) rest

/-- Python `str.strip` restricted to ASCII whitespace. -/
def stripStr (s : String) : String :=
  String.mk ((s.data.dropWhile (fun c => c.isWhitespace)).reverse.dropWhile
    (fun c => c.isWhitespace)).reverse

/-- Emit the hit for a completed stanza if it has `Package` and `Filename`
and the query matches the package name case-insensitively. -/
def stanzaHits (distro query : String) (cachedOracle : String → Bool)
    (pkg : List (String × String)) : List SearchHit :=
  match dictGet "Package" pkg, dictGet "Filename" pkg with
  | some pname, some fname =>
    if pyIn (lowerStr query) (lowerStr pname) then
      [⟨pname, fname, distro, some ((dictGet "Version" pkg).getD "unknown"), cachedOracle fname⟩]
    else []
  | _, _ => []

/-- The line loop of `parse_packages_file`: blank lines close a stanza (an
empty dict emits nothing), `Key: Value` lines update the dict, other lines
are ignored.  A stanza still open at end of file is NOT emitted, exactly as
in the source. -/
def parseLinesAux (distro query : String) (cachedOracle : String → Bool) :
    List String → List (String × String) → List SearchHit
  | [], _ => []
  | line :: rest, pkg =>
    let l := stripStr line
    if l = "" then
      stanzaHits distro query cachedOracle pkg ++
        parseLinesAux distro query cachedOracle rest []
    else
      match splitColon [] l.data with
      | some (k, v) =>
        parseLinesAux distro query cachedOracle rest (dictSet (stripStr k) (stripStr v) pkg)
      | none => parseLinesAux distro query cachedOracle rest pkg

/-- `parse_packages_file` on the (decompressed) lines of one file. -/
def parsePackagesFile (distro query : String) (cachedOracle : String → Bool)
    (lines : List String) : List SearchHit :=
  parseLinesAux distro query cachedOracle lines []

/-- One cache file in the walk: name and content lines. -/
abbrev WalkFile := String × List String

/-- `for m in file_matches`: append each match, bump the counter, and return
early (`true` flag) the moment the counter reaches the limit. -/
def appendCapped (limit : Nat) : List SearchHit → Nat → List SearchHit →
    List SearchHit × Nat × Bool
  | results, count, [] => (results, count, false)
  | results, count, m :: ms =>
    let results' := results ++ [m]
    let count' := count + 1
    if limit ≤ count' then (results', count', true)
    else appendCapped limit results' count' ms

/-- The `for filename in files` loop: a file participates when `"Packages"`
occurs in its name and in the part after the first underscore. -/
def scanFiles (limit : Nat) (distro query : String) (cachedOracle : String → Bool) :
    List WalkFile → List SearchHit → Nat → List SearchHit × Nat × Bool
  | [], results, count => (results, count, false)
  | (fname, lines) :: rest, results, count =>
    if pyIn "Packages" fname && pyIn "Packages" (realNameOf fname) then
      match appendCapped limit results count (parsePackagesFile distro query cachedOracle lines) with
      | (results', count', true) => (results', count', true)
      | (results', count', false) =>
        scanFiles limit distro query cachedOracle rest results' count'
    else scanFiles limit distro query cachedOracle rest results count

/-- The `os.walk` loop with the post-directory `if count >= limit: break`. -/
def walkScan (limit : Nat) (distro query : String) (cachedOracle : String → Bool) :
    List (List WalkFile) → List SearchHit → Nat → List SearchHit
  | [], results, _ => results
  | dir :: dirs, results, count =>
    match scanFiles limit distro query cachedOracle dir results count with
    | (results', _, true) => results'
    | (results', count', false) =>
      if limit ≤ count' then results'
      else walkScan limit distro query cachedOracle dirs results' count'

/-- `search_upstream_packages`.  `tree = none` models a missing storage path
or distro directory (both early-return the empty probe results). -/
def searchUpstreamPackages (distro query : String) (probeHit : Bool)
    (cachedOracle : String → Bool) (tree : Option (List (List WalkFile))) :
    List SearchHit :=
  if pyIn "/" query && probeHit then
    [⟨osBasename query, query, distro, none, cachedOracle query⟩]
  else
    match tree with
    | none => []
    | some dirs => walkScan 20 distro query cachedOracle dirs [] 0

/-- The matches contributed by one walked file: its parsed hits when the
name filter selects it, nothing otherwise. -/
def fileMatches (distro query : String) (cachedOracle : String → Bool) (f : WalkFile) :
    List SearchHit :=
  if pyIn "Packages" f.1 && pyIn "Packages" (realNameOf f.1) then
    parsePackagesFile distro query cachedOracle f.2
  else []

/-- The uncapped stream of scan matches, in walk order: reference definition
used to state that the capped scan is its 20-element truncation. -/
def allScanMatches (distro query : String) (cachedOracle : String → Bool)
    (dirs : List (List WalkFile)) : List SearchHit :=
  dirs.flatMap (fun dir => dir.flatMap (fileMatches distro query cachedOracle))

/-! ## Helper lemmas -/

theorem containsSub_nil (hay : List Char) : containsSub [] hay = true := by
  cases hay <;> simp [containsSub, isPrefixCh]

theorem matchesPattern_empty (f : String) : matchesPattern "" f = true := by
  have hd : ("" : String).data = [] := rfl
  simp [matchesPattern, hd, pyIn, lowerStr, containsSub_nil]

theorem fsGet_cons (p : String) (e : String × String) (t : CacheFs) :
    fsGet p (e :: t) = if e.1 == p then some e.2 else fsGet p t := by
  by_cases h : e.1 == p <;> simp [fsGet, List.find?, h]

theorem fsGet_fsErase_self (p : String) (fs : CacheFs) : fsGet p (fsErase p fs) = none := by
  induction fs with
  | nil => rfl
  | cons e t ih =>
    by_cases h : e.1 = p
    · simpa [fsErase, h] using ih
    · have hb : (e.1 == p) = false := by simp [h]
      simpa [fsErase, h, fsGet_cons, hb] using ih

theorem fsGet_fsErase_ne (q p : String) (fs : CacheFs) (h : q ≠ p) :
    fsGet q (fsErase p fs) = fsGet q fs := by
  induction fs with
  | nil => rfl
  | cons e t ih =>
    by_cases he : e.1 = p
    · have hb : (e.1 == q) = false := by
        rw [he]; exact beq_eq_false_iff_ne.mpr (fun hq => h hq.symm)
      have h1 : fsErase p (e :: t) = fsErase p t := by simp [fsErase, he]
      rw [h1, ih, fsGet_cons, hb]
      simp
    · have h1 : fsErase p (e :: t) = e :: fsErase p t := by simp [fsErase, he]
      rw [h1, fsGet_cons, fsGet_cons, ih]

theorem fsGet_fsSet_self (p v : String) (fs : CacheFs) : fsGet p (fsSet p v fs) = some v := by
  unfold fsSet
  induction fs with
  | nil => simp [fsErase, fsGet, List.find?]
  | cons e t ih =>
    by_cases h : e.1 = p
    · simpa [fsErase, h] using ih
    · have hb : (e.1 == p) = false := by simp [h]
      simpa [fsErase, h, fsGet_cons, hb] using ih

theorem fsGet_fsSet_ne (q p v : String) (fs : CacheFs) (h : q ≠ p) :
    fsGet q (fsSet p v fs) = fsGet q (fsErase p fs) := by
  unfold fsSet
  induction fsErase p fs with
  | nil =>
    have hb : (p == q) = false := by simp; exact fun hq => h hq.symm
    simp [fsGet, List.find?, hb]
  | cons e t ih => simp [fsGet_cons, ih]

/-! ## Claims -/

/-- C1: the source claims that `delete(rel)` refuses every relative path whose
resolved form escapes the storage root.  The guard compares the UNRESOLVED
joined path string against the resolved root, so a `..` component passes it:
with storage root `/srv/cache` and `rel = "../secret"`, the joined string
`/srv/cache/../secret` does start with `/srv/cache`, the kernel resolves it to
`/srv/secret` — outside the root — and the code deletes that file and returns
`True`.  The theorem evaluates the embedded function at that failing input. -/
theorem c1_delete_guard_bypassed_by_dotdot :
    deleteCachedFile "/srv/cache" ["/srv/secret", "/srv/cache/aa/f"] "../secret"
      = (true, ["/srv/cache/aa/f"])
    ∧ (resolvePath ((parsePath "/srv/cache").join "../secret")).render = "/srv/secret"
    ∧ startsWithCh "/srv/secret" "/srv/cache/" = false := by decide

/-- C2 counterexample: the writer opens `cache_path.with_suffix(".tmp")`, not
`cache_path + ".tmp"`: for a cache path ending in `.deb` the two differ. -/
theorem c2_counterexample_temp_name :
    (generateCached (parsePath "/srv/cache/debian/b4/b42022f5bd8cbb6d9462eb1af349bc75_hello_2.10.deb")
        ["aa"] StreamEnding.eof []).opened
      ≠ "/srv/cache/debian/b4/b42022f5bd8cbb6d9462eb1af349bc75_hello_2.10.deb" ++ ".tmp" := by
  decide

/-- C2 (amended): on a 200 cacheable response the writer opens exactly
`cache_path.with_suffix(".tmp")` (the final extension replaced by `.tmp`, or
`.tmp` appended when there is none), writes every non-empty body chunk to it,
and on clean end-of-stream renames that temp file onto `cache_path`, leaving
the full body at `cache_path` and nothing at the temp path. -/
theorem c2_clean_eof_publishes_via_with_suffix_temp (cachePath : PyPath) (chunks : List String)
    (fs0 : CacheFs) (hne : (cachePath.withSuffix ".tmp").render ≠ cachePath.render) :
    (generateCached cachePath chunks StreamEnding.eof fs0).opened
        = (cachePath.withSuffix ".tmp").render
    ∧ (generateCached cachePath chunks StreamEnding.eof fs0).renamed = true
    ∧ (generateCached cachePath chunks StreamEnding.eof fs0).yielded
        = chunks.filter (fun c => c ≠ "")
    ∧ fsGet cachePath.render (generateCached cachePath chunks StreamEnding.eof fs0).fs
        = some (String.join (chunks.filter (fun c => c ≠ "")))
    ∧ fsGet (cachePath.withSuffix ".tmp").render
        (generateCached cachePath chunks StreamEnding.eof fs0).fs = none := by
  refine ⟨rfl, rfl, rfl, ?_, ?_⟩
  · simp only [generateCached]
    exact fsGet_fsSet_self _ _ _
  · simp only [generateCached]
    rw [fsGet_fsSet_ne _ _ _ _ hne, fsGet_fsErase_ne _ _ _ hne, fsGet_fsErase_self]

theorem c2_clean_eof_publishes_via_with_suffix_temp_witness :
    ((parsePath "/r/ab/h_x.deb").withSuffix ".tmp").render ≠ (parsePath "/r/ab/h_x.deb").render
    ∧ ((generateCached (parsePath "/r/ab/h_x.deb") ["aa", "bb"] StreamEnding.eof []).opened
        = ((parsePath "/r/ab/h_x.deb").withSuffix ".tmp").render
      ∧ (generateCached (parsePath "/r/ab/h_x.deb") ["aa", "bb"] StreamEnding.eof []).renamed = true
      ∧ (generateCached (parsePath "/r/ab/h_x.deb") ["aa", "bb"] StreamEnding.eof []).yielded
          = ["aa", "bb"].filter (fun c => c ≠ "")
      ∧ fsGet (parsePath "/r/ab/h_x.deb").render
          (generateCached (parsePath "/r/ab/h_x.deb") ["aa", "bb"] StreamEnding.eof []).fs
          = some (String.join (["aa", "bb"].filter (fun c => c ≠ "")))
      ∧ fsGet ((parsePath "/r/ab/h_x.deb").withSuffix ".tmp").render
          (generateCached (parsePath "/r/ab/h_x.deb") ["aa", "bb"] StreamEnding.eof []).fs
          = none) :=
  ⟨by decide,
   c2_clean_eof_publishes_via_with_suffix_temp (parsePath "/r/ab/h_x.deb") ["aa", "bb"] []
     (by decide)⟩

/-- C3: the claim says every interrupted cache write (including a client
disconnect) deletes the temp file before the generator returns.  An ordinary
exception does run the cleanup (second conjunct), but a client disconnect
raises `GeneratorExit`, which `except Exception` does not catch: after an
abort one chunk into the stream the temp file remains on disk with the
partial body (first conjunct).  The entry is never published either way. -/
theorem c3_temp_file_survives_client_abort :
    (generateCached (parsePath "/r/ab/h_x.deb") ["aa", "bb"] (StreamEnding.clientAbort 1) []).fs
      = [("/r/ab/h_x.tmp", "aa")]
    ∧ (generateCached (parsePath "/r/ab/h_x.deb") ["aa", "bb"] (StreamEnding.clientAbort 1) []).renamed
      = false
    ∧ (generateCached (parsePath "/r/ab/h_x.deb") ["aa", "bb"] (StreamEnding.raiseExc 1) []).fs
      = []
    ∧ (generateCached (parsePath "/r/ab/h_x.deb") ["aa", "bb"] (StreamEnding.raiseExc 1) []).renamed
      = false := by decide

/-- C4 counterexample: with patterns `["*-doc_*.deb", "translations"]` the
claim says `"i18n/Translation-en.gz"` is blacklisted, but the pattern
`"translations"` (with the final `s`) is not a case-insensitive substring of
that filename, and the wildcard pattern does not match it either, so
`is_blacklisted` returns `False`. -/
theorem c4_counterexample_translation_file :
    isBlacklisted ["*-doc_*.deb", "translations"] "i18n/Translation-en.gz" = false := by decide

/-- C4 (amended): with the blacklist `["*-doc_*.deb", "translations"]`,
`is_blacklisted("vim-doc_9.0.deb")` is true, while both
`is_blacklisted("i18n/Translation-en.gz")` and
`is_blacklisted("hello_2.10.deb")` are false. -/
theorem c4_blacklist_examples :
    isBlacklisted ["*-doc_*.deb", "translations"] "vim-doc_9.0.deb" = true
    ∧ isBlacklisted ["*-doc_*.deb", "translations"] "i18n/Translation-en.gz" = false
    ∧ isBlacklisted ["*-doc_*.deb", "translations"] "hello_2.10.deb" = false := by decide

theorem mirrorLoop_step (sc : Bool) (cp : PyPath) (o : FetchOutcome)
    (rest : List FetchOutcome) (le : Option String) (hrec : recoverableB o = true) :
    mirrorLoop sc cp (o :: rest) le = mirrorLoop sc cp rest (some (errStringOf o)) := by
  cases o with
  | timeout => rfl
  | transport m => rfl
  | status c =>
    have hc : 400 ≤ c := by simpa [recoverableB] using hrec
    by_cases h404 : c = 404
    · subst h404; simp [mirrorLoop, errStringOf]
    · have h200 : ¬(c = 200 ∨ c = 206 ∨ c = 304) := by omega
      simp [mirrorLoop, errStringOf, h404, h200]

theorem mirrorLoop_all_fail (sc : Bool) (cp : PyPath) :
    ∀ (os : List FetchOutcome) (le : Option String), os ≠ [] →
      (∀ o ∈ os, recoverableB o = true) →
      mirrorLoop sc cp os le
        = ⟨502, RespBody.errorText ("All upstream mirrors failed. Last error: "
            ++ errStringOf (os.getLastD FetchOutcome.timeout))⟩ := by
  intro os
  induction os with
  | nil => exact fun le h _ => absurd rfl h
  | cons o rest ih =>
    intro le _ hrec
    have ho : recoverableB o = true := hrec o (List.mem_cons_self o rest)
    rw [mirrorLoop_step sc cp o rest le ho]
    cases rest with
    | nil => simp [mirrorLoop, renderOpt, List.getLastD]
    | cons o2 rest2 =>
      have hrec2 : ∀ x ∈ o2 :: rest2, recoverableB x = true :=
        fun x hx => hrec x (List.mem_cons_of_mem o hx)
      rw [ih (some (errStringOf o)) (by simp) hrec2]
      simp [List.getLastD_cons]

theorem mirrorLoop_no_cache (cp t fin : PyPath) :
    ∀ (os : List FetchOutcome) (le : Option String),
      (mirrorLoop false cp os le).body ≠ RespBody.cachingStream t fin := by
  intro os
  induction os with
  | nil => intro le; simp [mirrorLoop]
  | cons o rest ih =>
    intro le
    cases o with
    | timeout => exact ih _
    | transport m => exact ih _
    | status c =>
      show (mirrorLoop false cp (FetchOutcome.status c :: rest) le).body ≠ _
      simp only [mirrorLoop]
      split
      · exact ih _
      · split
        · split
          · simp
          · split
            · simp
            · simp
        · exact ih _

theorem isBlacklisted_empty_mem (l : List String) (f : String) (h : "" ∈ l) :
    isBlacklisted l f = true := by
  induction l with
  | nil => cases h
  | cons a t ih =>
    rcases List.mem_cons.mp h with ha | ht
    · rw [← ha]
      simp [isBlacklisted, matchesPattern_empty]
    · have h2 := ih ht
      simp [isBlacklisted] at h2 ⊢
      exact Or.inr h2

/-- C6: `stream_and_cache` walks the mirror URLs in listed order; a 404, any
other status `≥ 400`, a timeout and a transport error are all recoverable —
the loop records the corresponding error string and moves to the next mirror
— and when every mirror fails that way the response is a 502 whose body
carries the last recorded error. -/
theorem c6_mirror_failover_in_order (patterns : List String) (cp : PyPath)
    (outcomes : List FetchOutcome) (hne : outcomes ≠ [])
    (hrec : ∀ o ∈ outcomes, recoverableB o = true) :
    (∀ (sc : Bool) (o : FetchOutcome) (rest : List FetchOutcome) (le : Option String),
        recoverableB o = true →
        mirrorLoop sc cp (o :: rest) le = mirrorLoop sc cp rest (some (errStringOf o)))
    ∧ streamAndCache patterns cp outcomes
        = ⟨502, RespBody.errorText ("All upstream mirrors failed. Last error: "
            ++ errStringOf (outcomes.getLastD FetchOutcome.timeout))⟩ :=
  ⟨fun sc o rest le h => mirrorLoop_step sc cp o rest le h,
   mirrorLoop_all_fail _ cp outcomes none hne hrec⟩

theorem c6_mirror_failover_in_order_witness :
    ([FetchOutcome.status 503, FetchOutcome.timeout] ≠ ([] : List FetchOutcome))
    ∧ (∀ o ∈ [FetchOutcome.status 503, FetchOutcome.timeout], recoverableB o = true)
    ∧ ((∀ (sc : Bool) (o : FetchOutcome) (rest : List FetchOutcome) (le : Option String),
          recoverableB o = true →
          mirrorLoop sc (parsePath "/r/ab/h_x.deb") (o :: rest) le
            = mirrorLoop sc (parsePath "/r/ab/h_x.deb") rest (some (errStringOf o)))
      ∧ streamAndCache [] (parsePath "/r/ab/h_x.deb")
            [FetchOutcome.status 503, FetchOutcome.timeout]
          = ⟨502, RespBody.errorText ("All upstream mirrors failed. Last error: "
              ++ errStringOf (([FetchOutcome.status 503,
                  FetchOutcome.timeout]).getLastD FetchOutcome.timeout))⟩) :=
  ⟨by decide, by decide,
   c6_mirror_failover_in_order [] (parsePath "/r/ab/h_x.deb")
     [FetchOutcome.status 503, FetchOutcome.timeout] (by decide) (by decide)⟩

/-- C7: `is_cache_valid` returns false for an absent file; true for any
existing file when retention is disabled; otherwise true exactly when the
time since the atime of the file (mtime when reading atime raises) is below
`cache_days` days. -/
theorem c7_is_cache_valid_characterization (ret : Bool) (days now : Int)
    (st : Option FileTimes) :
    (st = none → isCacheValid ret days now st = false)
    ∧ (∀ t, st = some t → ret = false → isCacheValid ret days now st = true)
    ∧ (∀ t, st = some t → ret = true →
        (isCacheValid ret days now st = true ↔ now - t.atime.getD t.mtime < days * 86400)) := by
  refine ⟨?_, ?_, ?_⟩
  · rintro rfl; rfl
  · rintro t rfl rfl; rfl
  · rintro t rfl rfl
    simp [isCacheValid]

theorem c7_is_cache_valid_characterization_witness :
    ((some (FileTimes.mk (some 5) 3) : Option FileTimes) = none →
      isCacheValid true 7 1000000 (some (FileTimes.mk (some 5) 3)) = false)
    ∧ (∀ t, (some (FileTimes.mk (some 5) 3) : Option FileTimes) = some t → true = false →
        isCacheValid true 7 1000000 (some (FileTimes.mk (some 5) 3)) = true)
    ∧ (∀ t, (some (FileTimes.mk (some 5) 3) : Option FileTimes) = some t → true = true →
        (isCacheValid true 7 1000000 (some (FileTimes.mk (some 5) 3)) = true ↔
          (1000000 : Int) - t.atime.getD t.mtime < 7 * 86400)) :=
  c7_is_cache_valid_characterization true 7 1000000 (some (FileTimes.mk (some 5) 3))

/-- C8 counterexample: when the pattern is already present, `add` is a no-op
(`INSERT OR IGNORE` plus the membership test) but `remove` deletes the
pre-existing occurrence, so the round trip does NOT restore the matcher:
starting from `["a"]`, adding then removing `"a"` leaves an empty blacklist. -/
theorem c8_counterexample_preexisting_pattern :
    isBlacklisted ["a"] "a" = true
    ∧ isBlacklisted (removeBlacklistPattern "a" (addBlacklistPattern "a" ["a"])) "a" = false := by
  decide

/-- C8 (amended): for every blacklist state that does not already contain the
pattern `p`, adding `p` and then removing it restores the pattern list
exactly, hence the matcher behaviour on every filename. -/
theorem c8_add_remove_restores_matcher (l : List String) (p : String) (h : p ∉ l)
    (f : String) :
    isBlacklisted (removeBlacklistPattern p (addBlacklistPattern p l)) f
      = isBlacklisted l f := by
  have hadd : addBlacklistPattern p l = l ++ [p] := by simp [addBlacklistPattern, h]
  have hmem : p ∈ l ++ [p] := List.mem_append_right l (List.mem_singleton_self p)
  have hrem : removeBlacklistPattern p (l ++ [p]) = l := by
    rw [removeBlacklistPattern, if_pos hmem, List.erase_append_right [p] h,
      List.erase_cons_head]
    simp
  rw [hadd, hrem]

theorem c8_add_remove_restores_matcher_witness :
    ("b" ∉ (["a"] : List String))
    ∧ isBlacklisted (removeBlacklistPattern "b" (addBlacklistPattern "b" ["a"])) "x"
        = isBlacklisted ["a"] "x" :=
  ⟨by decide, c8_add_remove_restores_matcher ["a"] "b" (by decide) "x"⟩

/-- C10: with the empty-string pattern in the blacklist, `is_blacklisted`
returns true on every filename (the empty string is a substring of
everything), and consequently `stream_and_cache` never returns the caching
generator — no file is cached while that pattern is present. -/
theorem c10_empty_pattern_blacklists_everything :
    (∀ (l : List String) (f : String), "" ∈ l → isBlacklisted l f = true)
    ∧ (∀ (l : List String) (cp : PyPath) (outs : List FetchOutcome) (t fin : PyPath),
        "" ∈ l → (streamAndCache l cp outs).body ≠ RespBody.cachingStream t fin) := by
  refine ⟨fun l f h => isBlacklisted_empty_mem l f h, ?_⟩
  intro l cp outs t fin h
  unfold streamAndCache
  rw [isBlacklisted_empty_mem l (realNameOf cp.name) h, Bool.not_true]
  exact mirrorLoop_no_cache cp t fin outs none

theorem c10_empty_pattern_blacklists_everything_witness :
    ("" ∈ ([""] : List String))
    ∧ isBlacklisted [""] "hello_2.10.deb" = true
    ∧ (streamAndCache [""] (parsePath "/r/ab/h_x.deb") [FetchOutcome.status 200]).body
        ≠ RespBody.cachingStream ((parsePath "/r/ab/h_x.deb").withSuffix ".tmp")
            (parsePath "/r/ab/h_x.deb") :=
  ⟨by decide,
   c10_empty_pattern_blacklists_everything.1 [""] "hello_2.10.deb" (by decide),
   c10_empty_pattern_blacklists_everything.2 [""] (parsePath "/r/ab/h_x.deb")
     [FetchOutcome.status 200] _ _ (by decide)⟩

theorem appendCapped_eq (limit : Nat) (ms : List SearchHit) :
    ∀ (results : List SearchHit) (count : Nat),
      count = results.length → count < limit →
      appendCapped limit results count ms
        = if limit ≤ count + ms.length
          then (results ++ ms.take (limit - count), limit, true)
          else (results ++ ms, count + ms.length, false) := by
  induction ms with
  | nil =>
    intro results count hc hlt
    have h0 : ¬ limit ≤ count := by omega
    simp [appendCapped, h0]
  | cons m ms ih =>
    intro results count hc hlt
    simp only [appendCapped]
    by_cases hstop : limit ≤ count + 1
    · have hlim : limit = count + 1 := by omega
      have h2 : limit ≤ count + (m :: ms).length := by simp; omega
      have htake : limit - count = 1 := by omega
      rw [if_pos hstop, if_pos h2, htake]
      simp [hlim]
    · rw [if_neg hstop]
      rw [ih (results ++ [m]) (count + 1) (by simp [hc]) (by omega)]
      by_cases hbig : limit ≤ count + (m :: ms).length
      · have h1 : limit ≤ (count + 1) + ms.length := by simp at hbig; omega
        rw [if_pos h1, if_pos hbig]
        have hs : limit - count = (limit - (count + 1)) + 1 := by omega
        rw [hs, List.take_succ_cons]
        simp
      · have h1 : ¬ limit ≤ (count + 1) + ms.length := by simp at hbig; omega
        rw [if_neg h1, if_neg hbig]
        simp
        omega

theorem scanFiles_eq (limit : Nat) (distro query : String) (oracle : String → Bool) :
    ∀ (files : List WalkFile) (results : List SearchHit) (count : Nat),
      count = results.length → count < limit →
      scanFiles limit distro query oracle files results count
        = if limit ≤ count + (files.flatMap (fileMatches distro query oracle)).length
          then (results ++ (files.flatMap (fileMatches distro query oracle)).take (limit - count),
                limit, true)
          else (results ++ files.flatMap (fileMatches distro query oracle),
                count + (files.flatMap (fileMatches distro query oracle)).length, false) := by
  intro files
  induction files with
  | nil =>
    intro results count hc hlt
    have h0 : ¬ limit ≤ count + ([] : List SearchHit).length := by simp; omega
    simp only [List.flatMap_nil]
    rw [if_neg h0]
    simp [scanFiles]
  | cons f rest ih =>
    intro results count hc hlt
    simp only [List.flatMap_cons]
    by_cases hf : (pyIn "Packages" f.1 && pyIn "Packages" (realNameOf f.1)) = true
    · have hfm : fileMatches distro query oracle f
          = parsePackagesFile distro query oracle f.2 := by simp [fileMatches, hf]
      set msf := parsePackagesFile distro query oracle f.2 with hmsf
      set msr := rest.flatMap (fileMatches distro query oracle) with hmsr
      by_cases hcap : limit ≤ count + msf.length
      · have hred : scanFiles limit distro query oracle (f :: rest) results count
            = (results ++ msf.take (limit - count), limit, true) := by
          simp only [scanFiles, hf, if_true]
          rw [appendCapped_eq limit msf results count hc hlt, if_pos hcap]
        rw [hred]
        have hcap2 : limit ≤ count + (fileMatches distro query oracle f ++ msr).length := by
          rw [hfm]; simp; omega
        rw [if_pos hcap2, hfm]
        have htk : (msf ++ msr).take (limit - count)
            = msf.take (limit - count) ++ msr.take (limit - count - msf.length) :=
          List.take_append_eq_append_take
        have hz : limit - count - msf.length = 0 := by omega
        rw [htk, hz]
        simp
      · have hred : scanFiles limit distro query oracle (f :: rest) results count
            = scanFiles limit distro query oracle rest (results ++ msf) (count + msf.length) := by
          simp only [scanFiles, hf, if_true]
          rw [appendCapped_eq limit msf results count hc hlt, if_neg hcap]
        rw [hred]
        rw [ih (results ++ msf) (count + msf.length) (by simp [hc]) (by omega)]
        rw [hfm]
        by_cases hcap3 : limit ≤ count + (msf ++ msr).length
        · have h4 : limit ≤ count + msf.length + msr.length := by simp at hcap3; omega
          rw [if_pos h4, if_pos hcap3]
          have htk : (msf ++ msr).take (limit - count)
              = msf.take (limit - count) ++ msr.take (limit - count - msf.length) :=
            List.take_append_eq_append_take
          have hall : msf.take (limit - count) = msf := List.take_of_length_le (by omega)
          rw [htk, hall]
          have harith : limit - (count + msf.length) = limit - count - msf.length := by omega
          simp [harith]
        · have h4 : ¬ limit ≤ count + msf.length + msr.length := by simp at hcap3; omega
          rw [if_neg h4, if_neg hcap3]
          simp
          omega
    · have hfb : (pyIn "Packages" f.1 && pyIn "Packages" (realNameOf f.1)) = false := by
        simpa using hf
      have hfm : fileMatches distro query oracle f = [] := by simp [fileMatches, hfb]
      simp only [scanFiles, hfb]
      rw [ih results count hc hlt, hfm]
      simp

theorem walkScan_eq (limit : Nat) (distro query : String) (oracle : String → Bool) :
    ∀ (dirs : List (List WalkFile)) (results : List SearchHit) (count : Nat),
      count = results.length → count < limit →
      walkScan limit distro query oracle dirs results count
        = results ++ (dirs.flatMap (fun dir =>
            dir.flatMap (fileMatches distro query oracle))).take (limit - count) := by
  intro dirs
  induction dirs with
  | nil => intro results count hc hlt; simp [walkScan]
  | cons dir rest ih =>
    intro results count hc hlt
    simp only [List.flatMap_cons]
    set msd := dir.flatMap (fileMatches distro query oracle) with hmsd
    set msr := rest.flatMap (fun d => d.flatMap (fileMatches distro query oracle)) with hmsr
    by_cases hcap : limit ≤ count + msd.length
    · have hred : walkScan limit distro query oracle (dir :: rest) results count
          = results ++ msd.take (limit - count) := by
        simp only [walkScan]
        rw [scanFiles_eq limit distro query oracle dir results count hc hlt, if_pos hcap]
      rw [hred]
      have htk : (msd ++ msr).take (limit - count)
          = msd.take (limit - count) ++ msr.take (limit - count - msd.length) :=
        List.take_append_eq_append_take
      have hz : limit - count - msd.length = 0 := by omega
      rw [htk, hz]
      simp
    · have hred : walkScan limit distro query oracle (dir :: rest) results count
          = walkScan limit distro query oracle rest (results ++ msd) (count + msd.length) := by
        simp only [walkScan]
        rw [scanFiles_eq limit distro query oracle dir results count hc hlt, if_neg hcap]
        exact if_neg hcap
      rw [hred]
      rw [ih (results ++ msd) (count + msd.length) (by simp [hc]) (by omega)]
      have htk : (msd ++ msr).take (limit - count)
          = msd.take (limit - count) ++ msr.take (limit - count - msd.length) :=
        List.take_append_eq_append_take
      have hall : msd.take (limit - count) = msd := List.take_of_length_le (by omega)
      have harith : limit - (count + msd.length) = limit - count - msd.length := by omega
      rw [htk, hall, harith]
      simp

/-- C9: `search_upstream_packages` returns at most 20 hits in every case (the
direct probe returns at most one, the index scan is capped), and the index
scan is exactly the 20-element truncation of the uncapped match stream in
walk order: it stops emitting the moment the cap is reached. -/
theorem c9_search_result_cap (distro query : String) (probeHit : Bool)
    (oracle : String → Bool) (tree : Option (List (List WalkFile))) :
    (searchUpstreamPackages distro query probeHit oracle tree).length ≤ 20
    ∧ ∀ dirs, walkScan 20 distro query oracle dirs [] 0
        = (allScanMatches distro query oracle dirs).take 20 := by
  have hscan : ∀ dirs, walkScan 20 distro query oracle dirs [] 0
      = (allScanMatches distro query oracle dirs).take 20 := by
    intro dirs
    have h := walkScan_eq 20 distro query oracle dirs [] 0 rfl (by omega)
    simpa [allScanMatches] using h
  refine ⟨?_, hscan⟩
  unfold searchUpstreamPackages
  by_cases hp : (pyIn "/" query && probeHit) = true
  · rw [if_pos hp]; simp
  · rw [if_neg hp]
    cases tree with
    | none => simp
    | some dirs =>
      change (walkScan 20 distro query oracle dirs [] 0).length ≤ 20
      rw [hscan dirs]
      calc ((allScanMatches distro query oracle dirs).take 20).length
          = min 20 (allScanMatches distro query oracle dirs).length :=
            List.length_take 20 _
        _ ≤ 20 := min_le_left _ _

theorem splitSlashCh_no_slash (l : List Char) :
    ∀ acc : List Char, (∀ c ∈ l, c ≠ '/') → splitSlashCh acc l = [acc.reverse ++ l] := by
  induction l with
  | nil => intro acc _; simp [splitSlashCh]
  | cons c rest ih =>
    intro acc h
    have hc : c ≠ '/' := h c (List.mem_cons_self c rest)
    have hcb : (c == '/') = false := beq_eq_false_iff_ne.mpr hc
    rw [splitSlashCh, hcb]
    simp only [Bool.false_eq_true, if_false]
    rw [ih (c :: acc) (fun x hx => h x (List.mem_cons_of_mem c hx))]
    simp

theorem parsePath_single (s : String) (hne : s.data ≠ []) (hdot : s.data ≠ ['.'])
    (hs : ∀ c ∈ s.data, c ≠ '/') : parsePath s = ⟨false, [s]⟩ := by
  have habs : startsSlash s.data = false := by
    cases hd : s.data with
    | nil => rfl
    | cons c t =>
      have : c ≠ '/' := hs c (by rw [hd]; exact List.mem_cons_self c t)
      simp [startsSlash, this]
  have hsplit : splitSlashCh [] s.data = [s.data] := by
    simpa using splitSlashCh_no_slash s.data [] hs
  have hfil : (!(s.data == []) && !(s.data == ['.'])) = true := by
    simp [hne, hdot]
  unfold parsePath
  rw [habs, hsplit]
  unfold cleanSegs
  rw [List.filter_cons]
  simp only [hfil, if_true, List.filter_nil, List.map]

theorem join_relative (p : PyPath) (s : String) (h : (parsePath s).absolute = false) :
    p.join s = ⟨p.absolute, p.parts ++ (parsePath s).parts⟩ := by
  unfold PyPath.join
  simp [h]

theorem md5Digest_length (m : List Nat) : (md5Digest m).length = 16 := by
  simp [md5Digest]

theorem flatMap_pairs_length {α β : Type} (f g : α → β) (l : List α) :
    (l.flatMap (fun b => [f b, g b])).length = 2 * l.length := by
  induction l with
  | nil => simp
  | cons a t ih => simp [List.flatMap_cons, ih]; omega

theorem md5hexChars_length (s : String) : (md5hexChars s).length = 32 := by
  unfold md5hexChars
  rw [flatMap_pairs_length (fun b => hexDig (b / 16)) (fun b => hexDig (b % 16)),
    md5Digest_length]

theorem hexDig_mem (n : Nat) : hexDig n ∈ hexDigits := by
  unfold hexDig
  rcases h : hexDigits.get? n with _ | c
  · rw [List.getD_eq_getElem?_getD, ← List.get?_eq_getElem?, h]
    decide
  · rw [List.getD_eq_getElem?_getD, ← List.get?_eq_getElem?, h]
    exact List.get?_mem h

theorem md5hexChars_hex (s : String) : ∀ c ∈ md5hexChars s, c ∈ hexDigits := by
  intro c hc
  unfold md5hexChars at hc
  rcases List.mem_flatMap.mp hc with ⟨b, _, hcb⟩
  simp only [List.mem_cons, List.not_mem_nil, or_false] at hcb
  rcases hcb with rfl | rfl
  · exact hexDig_mem _
  · exact hexDig_mem _

theorem strMk_eq_iff (l1 l2 : List Char) : String.mk l1 = String.mk l2 ↔ l1 = l2 :=
  ⟨fun h => by injection h, fun h => by rw [h]⟩

theorem cleanSegs_clean (ls : List (List Char)) :
    ∀ s ∈ cleanSegs ls, s ≠ "" ∧ s ≠ "." := by
  intro s hs
  unfold cleanSegs at hs
  rcases List.mem_map.mp hs with ⟨l, hl, rfl⟩
  have hcond := List.of_mem_filter hl
  simp only [Bool.and_eq_true, Bool.not_eq_true', beq_eq_false_iff_ne] at hcond
  constructor
  · intro hcontra
    exact hcond.1 ((strMk_eq_iff l []).mp hcontra)
  · intro hcontra
    exact hcond.2 ((strMk_eq_iff l ['.']).mp hcontra)

theorem normSegsAux_no_dotdot (l : List String) :
    ∀ acc : List String, (∀ s ∈ l, s ≠ "" ∧ s ≠ "." ∧ s ≠ "..") →
      normSegsAux acc l = acc ++ l := by
  induction l with
  | nil => intro acc _; simp [normSegsAux]
  | cons s rest ih =>
    intro acc h
    have hs := h s (List.mem_cons_self s rest)
    rw [normSegsAux, if_neg (by tauto), if_neg hs.2.2,
      ih (acc ++ [s]) (fun x hx => h x (List.mem_cons_of_mem s hx))]
    simp

set_option maxRecDepth 40000

/-- C5 counterexample: `get_cache_path` joins the storage root with `distro`
through the pathlib `/` operator, and an absolute distro component discards
the root entirely: with storage root `/srv/cache`, distro `/etc` and path
`x`, the resulting cache path is under `/etc`, not under the storage root,
refuting the universally quantified containment claim. -/
theorem c5_counterexample_absolute_distro :
    (getCachePath "/srv/cache" "/etc" "x").render
      = "/etc/9d/9dd4e461268c8034f5c8564e155c67a6_x"
    ∧ startsWithCh (getCachePath "/srv/cache" "/etc" "x").render "/srv/cache" = false := by
  decide

/-- C5 (amended): `get_cache_path` is deterministic and produces exactly
`<storage_root>/<distro>/<md5hex(path)[0:2]>/<md5hex(path)>_<basename>` with
`basename = "index"` when the final segment of `path` is empty; and whenever
the storage root is an absolute `..`-free path and `distro` is relative and
`..`-free (in particular for every ordinary distro name), the resolved
result lies strictly under the resolved storage root.  An absolute or
`..`-carrying distro escapes the root. -/
theorem c5_cache_path_deterministic_and_contained (root distro path : String)
    (hrootAbs : (parsePath root).absolute = true)
    (hrootClean : ".." ∉ (parsePath root).parts)
    (hdRel : (parsePath distro).absolute = false)
    (hdClean : ".." ∉ (parsePath distro).parts) :
    getCachePath root distro path = getCachePath root distro path
    ∧ getCachePath root distro path
        = (((parsePath root).join distro).join (String.mk ((md5hexChars path).take 2))).join
            (md5hex path ++ "_" ++ (if osBasename path = "" then "index" else osBasename path))
    ∧ (getCachePath root distro path).absolute = true
    ∧ ∃ rest, rest ≠ [] ∧
        normSegsAux [] ((getCachePath root distro path).parts)
          = normSegsAux [] ((parsePath root).parts) ++ rest := by
  have hexSlash : ∀ c ∈ hexDigits, c ≠ '/' := by decide
  have hexDot : ∀ c ∈ hexDigits, c ≠ '.' := by decide
  -- the two-character hash directory component
  set h2 : List Char := (md5hexChars path).take 2 with hh2
  have h2len : h2.length = 2 := by
    rw [hh2, List.length_take, md5hexChars_length]
    decide
  have h2hex : ∀ c ∈ h2, c ∈ hexDigits :=
    fun c hc => md5hexChars_hex path c (List.take_subset 2 _ hc)
  have h2parse : parsePath (String.mk h2) = ⟨false, [String.mk h2]⟩ := by
    apply parsePath_single
    · intro hcontra
      rw [show (String.mk h2).data = h2 from rfl] at hcontra
      rw [hcontra] at h2len
      exact absurd h2len (by decide)
    · intro hcontra
      rw [show (String.mk h2).data = h2 from rfl] at hcontra
      rw [hcontra] at h2len
      exact absurd h2len (by decide)
    · intro c hc
      exact hexSlash c (h2hex c hc)
  -- the hash_basename file component
  set fname : String := if osBasename path = "" then "index" else osBasename path with hfname
  have hfnameSlash : ∀ c ∈ fname.data, c ≠ '/' := by
    rw [hfname]
    by_cases hb : osBasename path = ""
    · rw [if_pos hb]; decide
    · rw [if_neg hb]
      intro c hc
      unfold osBasename at hc
      rw [show (String.mk (afterLastSlash path.data)).data = afterLastSlash path.data from rfl]
        at hc
      unfold afterLastSlash at hc
      have := List.mem_takeWhile_imp (List.mem_reverse.mp hc)
      simpa using this
  set fns : String := md5hex path ++ "_" ++ fname with hfns
  have hfnsData : fns.data = (md5hexChars path ++ ['_']) ++ fname.data := by
    rw [hfns, String.data_append, String.data_append]
    rfl
  have hfnsLen : 33 ≤ fns.data.length := by
    rw [hfnsData]
    simp [md5hexChars_length]
    omega
  have hfnsParse : parsePath fns = ⟨false, [fns]⟩ := by
    apply parsePath_single
    · intro hcontra
      rw [hcontra] at hfnsLen
      exact absurd hfnsLen (by decide)
    · intro hcontra
      rw [hcontra] at hfnsLen
      exact absurd hfnsLen (by decide)
    · intro c hc
      rw [hfnsData] at hc
      rcases List.mem_append.mp hc with h1 | h1
      · rcases List.mem_append.mp h1 with h2c | h2c
        · exact hexSlash c (md5hexChars_hex path c h2c)
        · simp at h2c; rw [h2c]; decide
      · exact hfnameSlash c h1
  -- unfold the three joins
  have hstep1 : (parsePath root).join distro
      = ⟨(parsePath root).absolute, (parsePath root).parts ++ (parsePath distro).parts⟩ :=
    join_relative _ _ hdRel
  have hstep2 : getCachePath root distro path
      = ⟨(parsePath root).absolute,
          ((parsePath root).parts ++ (parsePath distro).parts ++ [String.mk h2]) ++ [fns]⟩ := by
    show (((parsePath root).join distro).join (String.mk h2)).join fns = _
    rw [hstep1, join_relative _ _ (by rw [hfnsParse]), join_relative _ _ (by rw [h2parse]),
      h2parse, hfnsParse]
  refine ⟨rfl, rfl, by rw [hstep2]; exact hrootAbs, ?_⟩
  -- all components are clean, so resolution is the identity
  have hrootPartsClean : ∀ s ∈ (parsePath root).parts, s ≠ "" ∧ s ≠ "." ∧ s ≠ ".." := by
    intro s hs
    have h1 := cleanSegs_clean _ s hs
    exact ⟨h1.1, h1.2, fun hcontra => hrootClean (hcontra ▸ hs)⟩
  have hdPartsClean : ∀ s ∈ (parsePath distro).parts, s ≠ "" ∧ s ≠ "." ∧ s ≠ ".." := by
    intro s hs
    have h1 := cleanSegs_clean _ s hs
    exact ⟨h1.1, h1.2, fun hcontra => hdClean (hcontra ▸ hs)⟩
  have hh2Clean : String.mk h2 ≠ "" ∧ String.mk h2 ≠ "." ∧ String.mk h2 ≠ ".." := by
    refine ⟨?_, ?_, ?_⟩
    · intro hcontra
      have h0 : h2 = [] := (strMk_eq_iff h2 []).mp hcontra
      rw [h0] at h2len; exact absurd h2len (by decide)
    · intro hcontra
      have h0 : h2 = ['.'] := (strMk_eq_iff h2 ['.']).mp hcontra
      rw [h0] at h2len; exact absurd h2len (by decide)
    · intro hcontra
      have hdd : h2 = ['.', '.'] := (strMk_eq_iff h2 ['.', '.']).mp hcontra
      have : ('.' : Char) ∈ h2 := by rw [hdd]; exact List.mem_cons_self _ _
      exact hexDot '.' (h2hex '.' this) rfl
  have hfnsClean : fns ≠ "" ∧ fns ≠ "." ∧ fns ≠ ".." := by
    refine ⟨?_, ?_, ?_⟩ <;> intro hcontra <;>
      · rw [hcontra] at hfnsLen
        exact absurd hfnsLen (by decide)
  refine ⟨(parsePath distro).parts ++ [String.mk h2] ++ [fns], by simp, ?_⟩
  rw [hstep2]
  have hallClean : ∀ s ∈ ((parsePath root).parts ++ (parsePath distro).parts
      ++ [String.mk h2]) ++ [fns], s ≠ "" ∧ s ≠ "." ∧ s ≠ ".." := by
    intro s hs
    rcases List.mem_append.mp hs with h1 | h1
    · rcases List.mem_append.mp h1 with h2m | h2m
      · rcases List.mem_append.mp h2m with h3 | h3
        · exact hrootPartsClean s h3
        · exact hdPartsClean s h3
      · simp at h2m; rw [h2m]; exact hh2Clean
    · simp at h1; rw [h1]; exact hfnsClean
  rw [normSegsAux_no_dotdot _ [] hallClean, normSegsAux_no_dotdot _ [] hrootPartsClean]
  simp

theorem c5_cache_path_deterministic_and_contained_witness :
    (parsePath "/srv/cache").absolute = true
    ∧ ".." ∉ (parsePath "/srv/cache").parts
    ∧ (parsePath "debian").absolute = false
    ∧ ".." ∉ (parsePath "debian").parts
    ∧ (getCachePath "/srv/cache" "debian" "pool/main/h/hello/hello_2.10.deb"
        = getCachePath "/srv/cache" "debian" "pool/main/h/hello/hello_2.10.deb"
      ∧ getCachePath "/srv/cache" "debian" "pool/main/h/hello/hello_2.10.deb"
          = (((parsePath "/srv/cache").join "debian").join
              (String.mk ((md5hexChars "pool/main/h/hello/hello_2.10.deb").take 2))).join
              (md5hex "pool/main/h/hello/hello_2.10.deb" ++ "_"
                ++ (if osBasename "pool/main/h/hello/hello_2.10.deb" = "" then "index"
                    else osBasename "pool/main/h/hello/hello_2.10.deb"))
      ∧ (getCachePath "/srv/cache" "debian" "pool/main/h/hello/hello_2.10.deb").absolute = true
      ∧ ∃ rest, rest ≠ [] ∧
          normSegsAux []
              ((getCachePath "/srv/cache" "debian" "pool/main/h/hello/hello_2.10.deb").parts)
            = normSegsAux [] ((parsePath "/srv/cache").parts) ++ rest) :=
  ⟨by decide, by decide, by decide, by decide,
   c5_cache_path_deterministic_and_contained "/srv/cache" "debian"
     "pool/main/h/hello/hello_2.10.deb" (by decide) (by decide) (by decide) (by decide)⟩

end AptCacheProxy
